import Mathlib

/-!
Shallow embedding of `hooks/tk-multi-launchapp/before_app_launch.py`
(class `BeforeAppLaunch`), the environment-variable resolution engine of
this configuration repository.

Modelling conventions:
- the platform is fixed to linux (`sys.platform = "linux2"`, path
  separator a colon), so each tracking record carries just the
  `sg_env_linux` field as its platform value;
- the process environment `os.environ` is an association list threaded
  explicitly through the pipeline;
- Python exceptions are modelled with `Except PyError`;
- Python 2 dicts have unspecified iteration order; the model uses
  insertion order, and the theorems rely on order only where a single
  key is involved or where the order is irrelevant;
- recursions over characters use an explicit fuel argument equal to the
  string length, so every definition is structural and kernel-reducible;
  the fuel never runs out because each step consumes at least one
  character.
-/

namespace BeforeAppLaunch

/-- The process environment `os.environ`, as an association list. -/
abbrev Env := List (String × String)

/-- Lookup in the environment (`os.environ.get` / `os.getenv`). -/
def envGet : Env → String → Option String
  | [], _ => none
  | (k, v) :: rest, n => if k = n then some v else envGet rest n

/-- Assignment `os.environ[n] = v`. -/
def envSet : Env → String → String → Env
  | [], n, v => [(n, v)]
  | (k, w) :: rest, n, v =>
    if k = n then (n, v) :: rest else (k, w) :: envSet rest n v

/-- Python 2 `\w` on byte strings: ASCII letters, digits, underscore. -/
def isWordChar (c : Char) : Bool := c.isAlphanum || c == '_'

/-- `os.path.expandvars` scanner (posixpath).  Walks the characters; at a
dollar sign it matches either a brace-delimited name or a maximal run of
word characters, substitutes the value when the name is set in the
environment, and otherwise leaves the reference text unchanged.
Substituted values are not rescanned, matching the CPython loop. -/
def expandAux (env : Env) : Nat → List Char → List Char
  | 0, cs => cs
  | _ + 1, [] => []
  | fuel + 1, c :: rest =>
    if c = '$' then
      match rest with
      | '{' :: r2 =>
        let inner := r2.takeWhile (fun d => d != '}')
        match r2.dropWhile (fun d => d != '}') with
        | '}' :: r3 =>
          match envGet env inner.asString with
          | some v => v.data ++ expandAux env fuel r3
          | none => '$' :: '{' :: (inner ++ '}' :: expandAux env fuel r3)
        | _ => '$' :: expandAux env fuel rest
      | _ =>
        let name := rest.takeWhile isWordChar
        if name.isEmpty then '$' :: expandAux env fuel rest
        else
          match envGet env name.asString with
          | some v => v.data ++ expandAux env fuel (rest.dropWhile isWordChar)
          | none => ('$' :: name) ++ expandAux env fuel (rest.dropWhile isWordChar)
    else
      c :: expandAux env fuel rest

/-- `os.path.expandvars`. -/
def expandVars (env : Env) (s : String) : String :=
  (expandAux env s.data.length s.data).asString

/-- `os.pathsep` on linux. -/
def pathSep : String := ":"

/-- Python `s.split(sep)` with a one-character separator: keeps empty
fields, and `"".split(sep) = [""]`. -/
def splitChar (sep : Char) : List Char → List (List Char)
  | [] => [[]]
  | c :: rest =>
    match splitChar sep rest with
    | [] => [[]]
    | g :: gs => if c = sep then [] :: g :: gs else (c :: g) :: gs

/-- Python `s.split(sep)` on strings. -/
def pySplit (sep : Char) (s : String) : List String :=
  (splitChar sep s.data).map List.asString

/-- Does `pat` occur at the head of `cs`? -/
def leadsWith : List Char → List Char → Bool
  | [], _ => true
  | _ :: _, [] => false
  | p :: ps, c :: cs => p == c && leadsWith ps cs

/-- Python `s.replace(pat, rep)`: one left-to-right pass, non-overlapping,
the replacement text is not rescanned.  Only used with non-empty `pat`. -/
def pyReplaceAux (pat rep : List Char) : Nat → List Char → List Char
  | 0, cs => cs
  | _ + 1, [] => []
  | fuel + 1, c :: rest =>
    if leadsWith pat (c :: rest) then
      rep ++ pyReplaceAux pat rep fuel ((c :: rest).drop pat.length)
    else
      c :: pyReplaceAux pat rep fuel rest

/-- Python `s.replace(pat, rep)` on strings. -/
def pyReplace (s pat rep : String) : String :=
  (pyReplaceAux pat.data rep.data s.data.length s.data).asString

/-- Python 2 byte-string `<`: lexicographic by byte value, a proper
leading piece of a longer string ranks below it. -/
def pyStrLtL : List Char → List Char → Bool
  | [], [] => false
  | [], _ :: _ => true
  | _ :: _, [] => false
  | a :: as, b :: bs =>
    if a.val < b.val then true
    else if b.val < a.val then false
    else pyStrLtL as bs

/-- Python 2 byte-string `<=`. -/
def pyStrLeL : List Char → List Char → Bool
  | [], _ => true
  | _ :: _, [] => false
  | a :: as, b :: bs =>
    if a.val < b.val then true
    else if b.val < a.val then false
    else pyStrLeL as bs

/-- Python 2 `<=` on strings. -/
def pyStrLe (a b : String) : Bool := pyStrLeL a.data b.data

/-!
Version comparison, `__min_check` / `__max_check` and
`__version_regex = (\d+)\.?(\d+)?(?:\.|v)?(\d+)?` (line 31).
`re.match(...).groups()` yields a triple of optional strings; when the
string does not start with a digit the match is `None` and `.groups()`
raises `AttributeError`.
-/

/-- The tuple of regex groups; `none` is a group that did not take part in
the match. -/
abbrev Groups := Option String × Option String × Option String

/-- `re.match(__version_regex, s).groups()`.  The regex is anchored at the
start, every group is greedy and all parts after the first are optional,
so a single forward pass reproduces it: a required run of digits, an
optional dot, an optional run of digits, an optional dot-or-v, an
optional run of digits.  `none` when the string does not start with a
digit (the match fails). -/
def parseVersion (s : String) : Option Groups :=
  let cs := s.data
  let d1 := cs.takeWhile Char.isDigit
  if d1.isEmpty then none
  else
    let rest1 := cs.drop d1.length
    let rest2 := match rest1 with
      | '.' :: r => r
      | r => r
    let d2 := rest2.takeWhile Char.isDigit
    let rest3 := rest2.drop d2.length
    let rest4 := match rest3 with
      | '.' :: r => r
      | 'v' :: r => r
      | r => r
    let d3 := rest4.takeWhile Char.isDigit
    some (some d1.asString,
      if d2.isEmpty then none else some d2.asString,
      if d3.isEmpty then none else some d3.asString)

/-- Python 2 `>=` on one group: `None` ranks below every string, strings
compare as byte strings. -/
def optGe : Option String → Option String → Bool
  | none, none => true
  | none, some _ => false
  | some _, none => true
  | some a, some b => pyStrLe b a

/-- Python 2 `<=` on one group. -/
def optLe : Option String → Option String → Bool
  | none, _ => true
  | some _, none => false
  | some a, some b => pyStrLe a b

/-- Python 2 `>=` on the group triples: find the first component where the
tuples differ and compare there; equal tuples compare `True`. -/
def tupleGe (a b : Groups) : Bool :=
  if a.1 ≠ b.1 then optGe a.1 b.1
  else if a.2.1 ≠ b.2.1 then optGe a.2.1 b.2.1
  else if a.2.2 ≠ b.2.2 then optGe a.2.2 b.2.2
  else true

/-- Python 2 `<=` on the group triples. -/
def tupleLe (a b : Groups) : Bool :=
  if a.1 ≠ b.1 then optLe a.1 b.1
  else if a.2.1 ≠ b.2.1 then optLe a.2.1 b.2.1
  else if a.2.2 ≠ b.2.2 then optLe a.2.2 b.2.2
  else true

/-- The Python exceptions the hook can raise while resolving. -/
inductive PyError where
  | attributeError
  | keyError
deriving DecidableEq, Repr

/-- `__min_check` (lines 261-268): `True` when the bound is absent,
otherwise parse the bound, then the current version (an unparseable
string raises `AttributeError`), and compare the raw group tuples with
Python `>=`. -/
def min_check (currVersion : String) (minVersion : Option String) :
    Except PyError Bool :=
  match minVersion with
  | none => .ok true
  | some m =>
    match parseVersion m with
    | none => .error .attributeError
    | some gm =>
      match parseVersion currVersion with
      | none => .error .attributeError
      | some gc => .ok (tupleGe gc gm)

/-- `__max_check` (lines 270-277), symmetric with `<=`. -/
def max_check (currVersion : String) (maxVersion : Option String) :
    Except PyError Bool :=
  match maxVersion with
  | none => .ok true
  | some m =>
    match parseVersion m with
    | none => .error .attributeError
    | some gm =>
      match parseVersion currVersion with
      | none => .error .attributeError
      | some gc => .ok (tupleLe gc gm)

/-!
Rule records and `__get_env_vars` (lines 128-225).  The database query
itself (`shotgun.find`, line 182) is an external collaborator: its
outcome is an input of the model, an `Except` value that is either the
record list or the exception the fetch raised.
-/

/-- One `CustomNonProjectEntity05` record as returned by the query, with
the fields requested on lines 175-179 (platform fixed to linux, so the
platform field is `sg_env_linux`). -/
structure SgRecord where
  code : String
  envLinux : Option String
  minVersion : Option String
  maxVersion : Option String
  defaultMethod : Option String
deriving DecidableEq, Repr

/-- The `env_lists` accumulator (line 185): one list of raw value lines
per merge method. -/
structure EnvLists where
  appendL : List String
  prependL : List String
  replaceL : List String
deriving DecidableEq, Repr

/-- One iteration of the result loop (lines 188-207).  The platform field
being falsy (absent or empty) skips the record.  Otherwise the min check
runs, then (Python `and` short-circuit) the max check; an exception in
either propagates out of the loop uncaught.  When both pass, the body
indexes `env_lists` with `sg_default_method`: an unset or unrecognized
method raises `KeyError`, which the surrounding handler does not catch
(it names `AttributeError` only), so it too propagates; a recognized
method extends that list with the lines of the platform field. -/
def processResult (appVersion : String) (lists : EnvLists) (r : SgRecord) :
    Except PyError EnvLists :=
  match r.envLinux with
  | none => .ok lists
  | some v =>
    if v = "" then .ok lists
    else
      match min_check appVersion r.minVersion with
      | .error e => .error e
      | .ok false => .ok lists
      | .ok true =>
        match max_check appVersion r.maxVersion with
        | .error e => .error e
        | .ok false => .ok lists
        | .ok true =>
          match r.defaultMethod with
          | some "append" =>
            .ok { lists with appendL := lists.appendL ++ pySplit '\n' v }
          | some "prepend" =>
            .ok { lists with prependL := lists.prependL ++ pySplit '\n' v }
          | some "replace" =>
            .ok { lists with replaceL := lists.replaceL ++ pySplit '\n' v }
          | _ => .error .keyError

/-- The result loop over all fetched records; an uncaught exception stops
the loop and propagates out of `__get_env_vars`. -/
def processResults (appVersion : String) (lists : EnvLists) :
    List SgRecord → Except PyError EnvLists
  | [] => .ok lists
  | r :: rest =>
    match processResult appVersion lists r with
    | .error e => .error e
    | .ok l => processResults appVersion l rest

/-- One merge-method bucket of `env_dicts`: variable name to the ordered
list of its raw values.  Python 2 dicts have no specified order; the
model keeps insertion order. -/
abbrev EnvDict := List (String × List String)

/-- Dictionary lookup in a bucket. -/
def dictGet : EnvDict → String → Option (List String)
  | [], _ => none
  | (k, vs) :: rest, n => if k = n then some vs else dictGet rest n

/-- `dict.setdefault(k, [])`: inserts an empty list under `k` when the key
is absent, leaves the dictionary unchanged otherwise. -/
def dictSetdefault (d : EnvDict) (k : String) : EnvDict :=
  match dictGet d k with
  | some _ => d
  | none => d ++ [(k, [])]

/-- Appending one value to the list stored under `k` (the `.append` on the
list object `setdefault` returned). -/
def dictAppendVal : EnvDict → String → String → EnvDict
  | [], k, v => [(k, [v])]
  | (k', vs) :: rest, k, v =>
    if k' = k then (k', vs ++ [v]) :: rest
    else (k', vs) :: dictAppendVal rest k v

/-- One iteration of the consolidation loop (lines 213-221):
`env_dicts[key].setdefault(i.split('=')[0], []).append(i.split('=')[1])`.
Python evaluates the `setdefault` call, and with it the key insertion,
before the argument of `.append`; on a line without `=` that argument
raises `IndexError`, which the handler catches and logs, so the key is
left inserted with an empty list and no value is appended.  On a line
with at least one `=` the appended value is element 1 of the split, the
segment between the first and second `=`. -/
def classifyLine (d : EnvDict) (line : String) : EnvDict :=
  let parts := pySplit '=' line
  let key := parts.headD ""
  let d1 := dictSetdefault d key
  match parts.get? 1 with
  | some v => dictAppendVal d1 key v
  | none => d1

/-- The consolidation loop over one method list. -/
def classifyLines (lines : List String) : EnvDict :=
  lines.foldl classifyLine []

/-!
`__resolve_nested_vars` (lines 227-259).
-/

/-- The type of the context entity, `entity["type"]`. -/
inductive EntityType where
  | project
  | asset
  | shot
  | sequence
  | other
deriving DecidableEq, Repr

/-- The context entity with its `code` field. -/
structure Entity where
  type : EntityType
  code : String
deriving DecidableEq, Repr

/-- Lines 229-245: derive the `(proj, seq, asset, shot)` substitution
values.  All four start empty; when there is no entity the project code
comes from a `Project` lookup (an external collaborator, passed in as
`projLookup`); when there is an entity, exactly the field matching its
type is filled in — in particular no project code is derived for a
`Shot`, `Sequence` or `Asset` entity. -/
def deriveCodes (entity : Option Entity) (projLookup : String) :
    String × String × String × String :=
  match entity with
  | none => (projLookup, "", "", "")
  | some e =>
    ((if e.type = .project then e.code else ""),
     (if e.type = .sequence then e.code else ""),
     (if e.type = .asset then e.code else ""),
     (if e.type = .shot then e.code else ""))

/-- Lines 249-259: substitute the placeholder tokens in one value, each
replacement guarded by its derived value being non-empty, in source
order: `$SEQ`, `$SHOT`, `$SHOW`, `$PROJ` (both project aliases), then
`$ASSET`. -/
def substItem (proj seq asset shot : String) (s : String) : String :=
  let s := if seq ≠ "" then pyReplace s "$SEQ" seq else s
  let s := if shot ≠ "" then pyReplace s "$SHOT" shot else s
  let s := if proj ≠ "" then pyReplace s "$SHOW" proj else s
  let s := if proj ≠ "" then pyReplace s "$PROJ" proj else s
  if asset ≠ "" then pyReplace s "$ASSET" asset else s

/-- Substitution over every value of one bucket (keys are not touched). -/
def substDict (proj seq asset shot : String) (d : EnvDict) : EnvDict :=
  d.map (fun kv => (kv.1, kv.2.map (substItem proj seq asset shot)))

/-- The three buckets `env_dicts` (line 209). -/
structure EnvDicts where
  appendD : EnvDict
  prependD : EnvDict
  replaceD : EnvDict
deriving DecidableEq, Repr

/-- `__resolve_nested_vars` over all three buckets. -/
def resolveNestedVars (entity : Option Entity) (projLookup : String)
    (ds : EnvDicts) : EnvDicts :=
  match deriveCodes entity projLookup with
  | (proj, seq, asset, shot) =>
    ⟨substDict proj seq asset shot ds.appendD,
     substDict proj seq asset shot ds.prependD,
     substDict proj seq asset shot ds.replaceD⟩

/-- `__get_env_vars` (lines 128-225): run the fetch, loop over the
records, consolidate each method list into its bucket, then resolve the
placeholders.  The fetch is the first step; when it raises, nothing else
runs. -/
def get_env_vars (fetch : Except PyError (List SgRecord))
    (appVersion : String) (entity : Option Entity) (projLookup : String) :
    Except PyError EnvDicts :=
  match fetch with
  | .error e => .error e
  | .ok results =>
    match processResults appVersion ⟨[], [], []⟩ results with
    | .error e => .error e
    | .ok lists =>
      .ok (resolveNestedVars entity projLookup
        ⟨classifyLines lists.appendL,
         classifyLines lists.prependL,
         classifyLines lists.replaceL⟩)

/-!
The apply phase of `execute` (lines 76-109).  The helpers
`sgtk.util.append_path_to_env_var` / `prepend_path_to_env_var` are part
of the external toolkit library, not of this repository.
-/

/-- Modelled from the spec: `sgtk.util.append_path_to_env_var`, an
external collaborator — inserts the value at the back of the variable's
separator-joined path list, creating the variable when it is absent or
empty. -/
def appendPathToEnvVar (env : Env) (name val : String) : Env :=
  match envGet env name with
  | none => envSet env name val
  | some old =>
    if old = "" then envSet env name val
    else envSet env name (old ++ pathSep ++ val)

/-- Modelled from the spec: `sgtk.util.prepend_path_to_env_var`, an
external collaborator — inserts the value at the front of the variable's
separator-joined path list, creating the variable when it is absent or
empty. -/
def prependPathToEnvVar (env : Env) (name val : String) : Env :=
  match envGet env name with
  | none => envSet env name val
  | some old =>
    if old = "" then envSet env name val
    else envSet env name (val ++ pathSep ++ old)

/-- The keys of one bucket. -/
def dictKeys (d : EnvDict) : List String := d.map Prod.fst

/-- Line 86: `list(set(replace.keys() + prepend.keys() + append.keys()))`.
The Python set has no specified order; the model deduplicates keeping
first occurrences, and the theorems use only membership or the
one-element case. -/
def touchedKeys (ds : EnvDicts) : List String :=
  (dictKeys ds.replaceD ++ dictKeys ds.prependD ++ dictKeys ds.appendD).eraseDups

/-- Lines 84-91: record every touched variable name in `SGTK_ENV_VARS`
(each name passed through `expandvars`), then add `TK_DEBUG` when that
variable is set to a truthy value in the ambient environment. -/
def recordKeys (ds : EnvDicts) (env : Env) : Env :=
  let env := (touchedKeys ds).foldl
    (fun e k => appendPathToEnvVar e "SGTK_ENV_VARS" (expandVars e k)) env
  match envGet env "TK_DEBUG" with
  | none => env
  | some s =>
    if s = "" then env else appendPathToEnvVar env "SGTK_ENV_VARS" "TK_DEBUG"

/-- Lines 93-97, the replace pass: for each key, for each value in list
order, `os.environ[key] = os.path.expandvars(value)`. -/
def applyReplacePass (d : EnvDict) (env : Env) : Env :=
  d.foldl (fun e kv => kv.2.foldl (fun e v => envSet e kv.1 (expandVars e v)) e) env

/-- Lines 99-103, the prepend pass. -/
def applyPrependPass (d : EnvDict) (env : Env) : Env :=
  d.foldl (fun e kv =>
    kv.2.foldl (fun e v => prependPathToEnvVar e kv.1 (expandVars e v)) e) env

/-- Lines 105-109, the append pass. -/
def applyAppendPass (d : EnvDict) (env : Env) : Env :=
  d.foldl (fun e kv =>
    kv.2.foldl (fun e v => appendPathToEnvVar e kv.1 (expandVars e v)) e) env

/-- The three passes in the fixed source order: replace (line 94), then
prepend (line 100), then append (line 106). -/
def applyAllPasses (ds : EnvDicts) (env : Env) : Env :=
  applyAppendPass ds.appendD (applyPrependPass ds.prependD
    (applyReplacePass ds.replaceD env))

/-- A string without a dollar sign; `expandVars` leaves such a string
unchanged. -/
def dollarFree (s : String) : Bool := s.data.all (fun c => c != '$')

/-- Decimal value of a digit string (used only to state claim C1's
premise). -/
def digitsToNat (acc : Nat) : List Char → Nat
  | [] => acc
  | c :: rest => digitsToNat (acc * 10 + (c.toNat - '0'.toNat)) rest

/-- The per-component comparison described by claim C1, following the
claim's words rather than the source: components compared numerically,
an absent bound component imposing no constraint.  Used only to state
the counterexample against the source's `min_check`. -/
def claimNumGeComp : Option String → Option String → Bool
  | _, none => true
  | none, some _ => false
  | some c, some m => digitsToNat 0 m.data ≤ digitsToNat 0 c.data

/-- Claim C1's premise on the parsed group triples: every numeric
component of the current version at least the corresponding bound
component. -/
def claimNumGe (a b : Groups) : Bool :=
  claimNumGeComp a.1 b.1 && claimNumGeComp a.2.1 b.2.1 &&
    claimNumGeComp a.2.2 b.2.2

/-- Outcome of one run of the resolution engine: the environment as left
behind, and the exception that aborted the run, if any. -/
structure RunResult where
  env : Env
  aborted : Option PyError
deriving DecidableEq, Repr

/-- The environment-variable resolution engine portion of `execute`
(lines 76-109): `__get_env_vars` (whose first step is the fetch), then
the `SGTK_ENV_VARS` bookkeeping, then the three apply passes.  An
exception out of `__get_env_vars` propagates out of `execute` before any
of the bookkeeping or passes touch the environment.  (The
pipeline-template block of lines 68-74 precedes this and is outside the
resolution engine; the specification scopes it out as an external
collaborator.) -/
def executeResolution (fetch : Except PyError (List SgRecord))
    (appVersion : String) (entity : Option Entity) (projLookup : String)
    (env : Env) : RunResult :=
  match get_env_vars fetch appVersion entity projLookup with
  | .error e => ⟨env, some e⟩
  | .ok ds => ⟨applyAllPasses ds (recordKeys ds env), none⟩


/-!
Helper lemmas.
-/

theorem envGet_envSet_self (e : Env) (k v : String) :
    envGet (envSet e k v) k = some v := by
  induction e with
  | nil => simp [envSet, envGet]
  | cons kv rest ih =>
    obtain ⟨a, b⟩ := kv
    by_cases h : a = k
    · simp [envSet, h, envGet]
    · simp [envSet, h, envGet, ih]

theorem expandAux_no_dollar (env : Env) (fuel : Nat) (cs : List Char)
    (h : ∀ c ∈ cs, ¬ c = '$') : expandAux env fuel cs = cs := by
  induction fuel generalizing cs with
  | zero => rfl
  | succ fuel ih =>
    cases cs with
    | nil => rfl
    | cons c rest =>
      have hc : ¬ c = '$' := h c (by simp)
      have hr : ∀ d ∈ rest, ¬ d = '$' := fun d hd => h d (by simp [hd])
      simp [expandAux, hc, ih rest hr]

theorem expandVars_no_dollar (env : Env) (s : String)
    (h : dollarFree s = true) : expandVars env s = s := by
  have h' : ∀ c ∈ s.data, ¬ c = '$' := by
    intro c hc
    have hb : (c != '$') = true := by
      unfold dollarFree at h
      exact List.all_eq_true.mp h c hc
    simpa using hb
  show (expandAux env s.data.length s.data).asString = s
  rw [expandAux_no_dollar env _ _ h']
  cases s
  rfl

theorem dictGet_append_ne (d : EnvDict) (k n : String) (vs : List String)
    (h : ¬ n = k) : dictGet (d ++ [(k, vs)]) n = dictGet d n := by
  induction d with
  | nil =>
    simp only [List.nil_append, dictGet]
    rw [if_neg (fun hk => h hk.symm)]
  | cons kv rest ih =>
    obtain ⟨a, b⟩ := kv
    by_cases ha : a = n
    · simp [dictGet, ha]
    · simp [dictGet, ha, ih]

theorem dictGet_append_self (d : EnvDict) (k : String) (vs : List String)
    (h : dictGet d k = none) : dictGet (d ++ [(k, vs)]) k = some vs := by
  induction d with
  | nil => simp [dictGet]
  | cons kv rest ih =>
    obtain ⟨a, b⟩ := kv
    by_cases ha : a = k
    · simp [dictGet, ha] at h
    · simp [dictGet, ha] at h ⊢
      exact ih h

theorem dictGet_setdefault_self (d : EnvDict) (k : String) :
    dictGet (dictSetdefault d k) k = some ((dictGet d k).getD []) := by
  unfold dictSetdefault
  cases h : dictGet d k with
  | some vs => simp [h]
  | none => simp [dictGet_append_self d k [] h]

theorem applyReplacePass_append_empty (d : EnvDict) (k : String) (env : Env) :
    applyReplacePass (d ++ [(k, [])]) env = applyReplacePass d env := by
  unfold applyReplacePass
  rw [List.foldl_append]
  rfl

theorem applyPrependPass_append_empty (d : EnvDict) (k : String) (env : Env) :
    applyPrependPass (d ++ [(k, [])]) env = applyPrependPass d env := by
  unfold applyPrependPass
  rw [List.foldl_append]
  rfl

theorem applyAppendPass_append_empty (d : EnvDict) (k : String) (env : Env) :
    applyAppendPass (d ++ [(k, [])]) env = applyAppendPass d env := by
  unfold applyAppendPass
  rw [List.foldl_append]
  rfl

theorem tupleGe_of_components (a b : Groups) (h1 : optGe a.1 b.1 = true)
    (h2 : optGe a.2.1 b.2.1 = true) (h3 : optGe a.2.2 b.2.2 = true) :
    tupleGe a b = true := by
  unfold tupleGe
  split_ifs <;> first | assumption | rfl

theorem tupleLe_of_components (a b : Groups) (h1 : optLe a.1 b.1 = true)
    (h2 : optLe a.2.1 b.2.1 = true) (h3 : optLe a.2.2 b.2.2 = true) :
    tupleLe a b = true := by
  unfold tupleLe
  split_ifs <;> first | assumption | rfl

theorem prependPath_existing (env : Env) (k v old : String)
    (h : envGet env k = some old) (hne : ¬ old = "") :
    prependPathToEnvVar env k v = envSet env k (v ++ pathSep ++ old) := by
  unfold prependPathToEnvVar
  rw [h]
  simp [hne]

theorem sep_append_ne_empty (a b : String) : ¬ (a ++ pathSep ++ b) = "" := by
  intro hEq
  have hlen := congrArg String.length hEq
  have h1 : pathSep.length = 1 := rfl
  have h0 : ("" : String).length = 0 := rfl
  rw [String.length_append, String.length_append, h1, h0] at hlen
  omega

/-!
The claims.
-/

/-- Claim C1 counterexample: current version 10 against minimum 9; every
numeric component of the current version is at least the corresponding
bound component, yet the min check returns false, because the regex
groups are compared as strings and the string 10 ranks below the
string 9. -/
theorem c1_counterexample :
    parseVersion "10" = some (some "10", none, none) ∧
    parseVersion "9" = some (some "9", none, none) ∧
    claimNumGe (some "10", none, none) (some "9", none, none) = true ∧
    min_check "10" (some "9") = .ok false :=
  ⟨by decide, by decide, by decide, rfl⟩

/-- Claim C1 (amended): the min check compares the parsed version groups
as Python 2 tuples, an absent component ranking below any present one
and present components comparing lexicographically as byte strings, not
numerically.  Under that componentwise order the min check returns true,
the max check is symmetric with the componentwise at-most order, and the
concrete pairs behave as the claim states. -/
theorem c1_min_check_componentwise :
    (∀ (c m : String) (gc gm : Groups),
        parseVersion c = some gc → parseVersion m = some gm →
        optGe gc.1 gm.1 = true → optGe gc.2.1 gm.2.1 = true →
        optGe gc.2.2 gm.2.2 = true → min_check c (some m) = .ok true) ∧
    (∀ (c m : String) (gc gm : Groups),
        parseVersion c = some gc → parseVersion m = some gm →
        optLe gc.1 gm.1 = true → optLe gc.2.1 gm.2.1 = true →
        optLe gc.2.2 gm.2.2 = true → max_check c (some m) = .ok true) ∧
    min_check "2.1.3" (some "2.0") = .ok true ∧
    min_check "1.9" (some "2.0") = .ok false := by
  refine ⟨?_, ?_, rfl, rfl⟩
  · intro c m gc gm hc hm h1 h2 h3
    simp [min_check, hm, hc, tupleGe_of_components gc gm h1 h2 h3]
  · intro c m gc gm hc hm h1 h2 h3
    simp [max_check, hm, hc, tupleLe_of_components gc gm h1 h2 h3]

/-- Witness for C1: the componentwise statement applied at current 3.0
against bound 2.0. -/
theorem c1_witness : min_check "3.0" (some "2.0") = .ok true :=
  c1_min_check_componentwise.1 "3.0" "2.0" (some "3", some "0", none)
    (some "2", some "0", none) (by decide) (by decide) (by decide)
    (by decide) (by decide)

/-- Claim C2 counterexample: for a launch context whose entity is a Shot
with code sh010 the value resolves to /assets/$SHOW/sh010, not to
/assets/proj42/sh010 as claimed — no project code is derived for a Shot
entity, so the project aliases stay unchanged. -/
theorem c2_counterexample :
    dictGet (resolveNestedVars (some ⟨.shot, "sh010"⟩) "proj42"
        ⟨[], [], classifyLines ["$MYVAR=/assets/$SHOW/$SHOT"]⟩).replaceD
      "$MYVAR" = some ["/assets/$SHOW/sh010"] ∧
    ¬ dictGet (resolveNestedVars (some ⟨.shot, "sh010"⟩) "proj42"
        ⟨[], [], classifyLines ["$MYVAR=/assets/$SHOW/$SHOT"]⟩).replaceD
      "$MYVAR" = some ["/assets/proj42/sh010"] :=
  ⟨by decide, by decide⟩

/-- Claim C2 (amended): placeholder resolution derives the project code
only when the launch entity is absent (then via the project lookup) or
is itself the Project; for a Shot entity only the shot code is derived,
the project aliases are left unsubstituted, and the example value
resolves to /assets/$SHOW/sh010.  With no entity at all the lookup code
is used and the project aliases are substituted. -/
theorem c2_project_code_derivation :
    (∀ p : String, deriveCodes none p = (p, "", "", "")) ∧
    (∀ c p : String, deriveCodes (some ⟨.project, c⟩) p = (c, "", "", "")) ∧
    (∀ c p : String, deriveCodes (some ⟨.shot, c⟩) p = ("", "", "", c)) ∧
    dictGet (resolveNestedVars (some ⟨.shot, "sh010"⟩) "proj42"
        ⟨[], [], classifyLines ["$MYVAR=/assets/$SHOW/$SHOT"]⟩).replaceD
      "$MYVAR" = some ["/assets/$SHOW/sh010"] ∧
    dictGet (resolveNestedVars none "proj42"
        ⟨[], [], classifyLines ["$MYVAR=/assets/$SHOW/$SHOT"]⟩).replaceD
      "$MYVAR" = some ["/assets/proj42/$SHOT"] :=
  ⟨fun _ => rfl, fun _ _ => rfl, fun _ _ => rfl, by decide, by decide⟩

/-- Claim C3 (the code diverges from it): a fetched rule with an unset
merge method raises KeyError out of the result loop — the handler there
names AttributeError only — and a rule whose version bound does not
parse raises AttributeError from the min check, which runs outside any
handler; either exception aborts the whole resolution instead of
skipping the rule, and a later valid rule is never reached. -/
theorem c3_bad_rule_aborts :
    get_env_vars (.ok
        [⟨"no-method", some "A=1", none, none, none⟩,
         ⟨"good", some "C=3", none, none, some "replace"⟩])
      "2.0" none "p" = .error .keyError ∧
    get_env_vars (.ok
        [⟨"bad-bound", some "B=2", some "abc", none, some "replace"⟩,
         ⟨"good", some "C=3", none, none, some "replace"⟩])
      "2.0" none "p" = .error .attributeError ∧
    (executeResolution (.ok
        [⟨"no-method", some "A=1", none, none, none⟩,
         ⟨"good", some "C=3", none, none, some "replace"⟩])
      "2.0" none "p" []).aborted = some .keyError :=
  ⟨rfl, rfl, rfl⟩

/-- Claim C4 counterexample: the line PATH=/a=b stores the value /a, the
segment between the first and second separator, not the full remainder
/a=b. -/
theorem c4_counterexample :
    classifyLines ["PATH=/a=b"] = [("PATH", ["/a"])] ∧
    ¬ classifyLines ["PATH=/a=b"] = [("PATH", ["/a=b"])] :=
  ⟨by decide, by decide⟩

/-- Claim C4 (amended): classification splits each line on every
separator; the key is the text before the first one and the appended
value is element 1 of the split — the segment between the first and
second separator — so any text after a second separator is dropped. -/
theorem c4_second_segment :
    (∀ (d : EnvDict) (line p0 p1 : String) (rest : List String),
        pySplit '=' line = p0 :: p1 :: rest →
        classifyLine d line = dictAppendVal (dictSetdefault d p0) p0 p1) ∧
    pySplit '=' "PATH=/a=b" = ["PATH", "/a", "b"] := by
  refine ⟨?_, by decide⟩
  intro d line p0 p1 rest h
  unfold classifyLine
  rw [h]
  rfl

/-- Witness for C4: the general split statement applied to the concrete
line. -/
theorem c4_witness :
    classifyLine [] "PATH=/a=b" =
      dictAppendVal (dictSetdefault [] "PATH") "PATH" "/a" :=
  c4_second_segment.1 [] "PATH=/a=b" "PATH" "/a" ["b"] (by decide)

/-- Claim C5: when the rule fetch raises, the exception propagates out of
the resolution engine before the bookkeeping or any apply pass runs: the
run is aborted and the resolution has left the environment exactly as it
was. -/
theorem c5_fetch_failure_aborts (e : PyError) (appVersion : String)
    (entity : Option Entity) (projLookup : String) (env : Env) :
    (executeResolution (.error e) appVersion entity projLookup env).aborted
      = some e ∧
    (executeResolution (.error e) appVersion entity projLookup env).env
      = env :=
  ⟨rfl, rfl⟩

/-- Claim C6: the apply phase is the three passes in the fixed order
replace, prepend, append; in the replace bucket the values of a key are
applied in list order so the last one wins; and end to end a replace
rule MYVAR=foo followed by an append rule MYVAR=bar leaves MYVAR as foo
followed by the separator-joined bar. -/
theorem c6_replace_then_append :
    (∀ (k : String) (vs : List String) (v : String) (env : Env),
        dollarFree v = true →
        envGet (applyReplacePass [(k, vs ++ [v])] env) k = some v) ∧
    (∀ (ds : EnvDicts) (env : Env),
        applyAllPasses ds env =
          applyAppendPass ds.appendD
            (applyPrependPass ds.prependD
              (applyReplacePass ds.replaceD env))) ∧
    envGet (executeResolution (.ok
        [⟨"A", some "MYVAR=foo", none, none, some "replace"⟩,
         ⟨"B", some "MYVAR=bar", none, none, some "append"⟩])
      "2.0" none "proj42" []).env "MYVAR"
      = some ("foo" ++ pathSep ++ "bar") := by
  refine ⟨?_, fun ds env => rfl, rfl⟩
  intro k vs v env hv
  show envGet ((vs ++ [v]).foldl
      (fun e v => envSet e k (expandVars e v)) env) k = some v
  rw [List.foldl_append]
  simp only [List.foldl_cons, List.foldl_nil]
  rw [expandVars_no_dollar _ _ hv, envGet_envSet_self]

/-- Witness for C6: the last replace value wins at a concrete key. -/
theorem c6_witness :
    envGet (applyReplacePass [("K", ["a"] ++ ["b"])] []) "K" = some "b" :=
  c6_replace_then_append.1 "K" ["a"] "b" [] (by decide)

/-- Claim C7: two prepends v1 then v2 on a key holding a non-empty value
e yield v2, then v1, then the existing content — each later prepend
lands in front of everything earlier. -/
theorem c7_prepend_order (k v1 v2 e : String) (env : Env)
    (he : envGet env k = some e) (hne : ¬ e = "")
    (h1 : dollarFree v1 = true) (h2 : dollarFree v2 = true) :
    envGet (applyPrependPass [(k, [v1, v2])] env) k =
      some (v2 ++ pathSep ++ (v1 ++ pathSep ++ e)) := by
  show envGet ([v1, v2].foldl
      (fun en v => prependPathToEnvVar en k (expandVars en v)) env) k = _
  simp only [List.foldl_cons, List.foldl_nil]
  rw [expandVars_no_dollar _ _ h1, prependPath_existing env k v1 e he hne]
  rw [expandVars_no_dollar _ _ h2]
  rw [prependPath_existing _ k v2 (v1 ++ pathSep ++ e)
    (envGet_envSet_self env k _) (sep_append_ne_empty v1 e)]
  exact envGet_envSet_self _ k _

/-- Witness for C7 at a concrete key, values and existing content. -/
theorem c7_witness :
    envGet (applyPrependPass [("P", ["v1", "v2"])] [("P", "e0")]) "P" =
      some ("v2" ++ pathSep ++ ("v1" ++ pathSep ++ "e0")) :=
  c7_prepend_order "P" "v1" "v2" "e0" [("P", "e0")] rfl (by decide)
    (by decide) (by decide)

/-- Claim C8: a value line without a separator is absorbed inside
classification (the model is total there, matching the caught
IndexError) and contributes no value to any bucket entry: every apply
pass, and the stored values of every other key, are exactly as they
would be without that line. -/
theorem c8_no_separator_line (line : String) (d : EnvDict) (env : Env)
    (hsplit : pySplit '=' line = [line]) :
    applyReplacePass (classifyLine d line) env = applyReplacePass d env ∧
    applyPrependPass (classifyLine d line) env = applyPrependPass d env ∧
    applyAppendPass (classifyLine d line) env = applyAppendPass d env ∧
    ∀ k, ¬ k = line → dictGet (classifyLine d line) k = dictGet d k := by
  have hcl : classifyLine d line = dictSetdefault d line := by
    unfold classifyLine
    rw [hsplit]
    rfl
  rw [hcl]
  unfold dictSetdefault
  cases hd : dictGet d line with
  | some vs => exact ⟨rfl, rfl, rfl, fun k hk => rfl⟩
  | none =>
    exact ⟨applyReplacePass_append_empty d line env,
      applyPrependPass_append_empty d line env,
      applyAppendPass_append_empty d line env,
      fun k hk => dictGet_append_ne d line k [] hk⟩

/-- Witness for C8 at the concrete MALFORMED line. -/
theorem c8_witness :
    applyReplacePass (classifyLine [("PATH", ["/x"])] "MALFORMED") [] =
      applyReplacePass [("PATH", ["/x"])] [] ∧
    dictGet (classifyLine [("PATH", ["/x"])] "MALFORMED") "PATH" =
      dictGet [("PATH", ["/x"])] "PATH" :=
  ⟨(c8_no_separator_line "MALFORMED" [("PATH", ["/x"])] [] (by decide)).1,
   (c8_no_separator_line "MALFORMED" [("PATH", ["/x"])] [] (by decide)).2.2.2
     "PATH" (by decide)⟩

/-- Claim C9: the min and max checks compare the regex group tuples with
an absent component ranking strictly below any present one and present
components comparing as strings: current 1.2.0 against minimum 1.2
passes and current 1.2 against minimum 1.2.0 fails. -/
theorem c9_tuple_option_order :
    min_check "1.2.0" (some "1.2") = .ok true ∧
    min_check "1.2" (some "1.2.0") = .ok false ∧
    (∀ s : String, optGe none (some s) = false ∧ optGe (some s) none = true ∧
      optLe none (some s) = true ∧ optLe (some s) none = false) ∧
    (∀ a b : String, optGe (some a) (some b) = pyStrLe b a ∧
      optLe (some a) (some b) = pyStrLe a b) :=
  ⟨rfl, rfl, fun _ => ⟨rfl, rfl, rfl, rfl⟩, fun _ _ => ⟨rfl, rfl⟩⟩

/-- Claim C10: a line without a separator still gets its whole text
inserted as a key with an empty value list (the setdefault call runs
before the IndexError is raised), that name lands in the SGTK_ENV_VARS
touched-variables list, and no variable of that name is ever assigned a
value. -/
theorem c10_malformed_key_recorded :
    (∀ d : EnvDict, dictGet (classifyLine d "MALFORMED") "MALFORMED" =
        some ((dictGet d "MALFORMED").getD [])) ∧
    classifyLines ["MALFORMED"] = [("MALFORMED", [])] ∧
    "MALFORMED" ∈ touchedKeys ⟨[], [], classifyLines ["MALFORMED"]⟩ ∧
    (executeResolution
        (.ok [⟨"M", some "MALFORMED", none, none, some "replace"⟩])
        "2.0" none "proj42" []).env = [("SGTK_ENV_VARS", "MALFORMED")] ∧
    envGet (executeResolution
        (.ok [⟨"M", some "MALFORMED", none, none, some "replace"⟩])
        "2.0" none "proj42" []).env "MALFORMED" = none := by
  refine ⟨?_, by decide, by decide, rfl, rfl⟩
  intro d
  have hcl : classifyLine d "MALFORMED" = dictSetdefault d "MALFORMED" := rfl
  rw [hcl]
  exact dictGet_setdefault_self d "MALFORMED"

end BeforeAppLaunch
